import Mathlib

/-!
Verification of the MAX-Msp-GUI-Maker segmentation and spritesheet pipeline.

The definitions below are a shallow embedding of the Python sources:
`animation_tab.py` (fader spritesheet export), `knob_animation_tab.py`
(knob rotation spritesheet export and direction reversal),
`process_fader_image.py` (background removal and connected-component
splitting) and `background_tab.py` (the UI tab calling into the latter).
Real coordinates and angles (Python floats) are modelled by `ℚ`;
machine integers by `ℕ`/`ℤ` (Python integers are unbounded).
-/

namespace MaxGui

/-! ## Frame sampler (animation_tab.py line 267, knob_animation_tab.py line 745)

Python: `t = i / (frames - 1) if frames > 1 else 0`. -/

/-- Interpolation parameter of frame `i` out of `frames`:
`i / (frames - 1)` when `frames > 1`, else `0`. -/
def tParam (frames i : ℕ) : ℚ :=
  if frames > 1 then (i : ℚ) / ((frames : ℚ) - 1) else 0

/-- Model of Python `int(...)` applied to a real value: truncation toward
zero (floor for nonnegative arguments, ceiling for negative ones). -/
def pyInt (q : ℚ) : ℤ :=
  if 0 ≤ q then Int.floor q else Int.ceil q

/-- Fader cap vertical position for frame `i`
(animation_tab.py line 268):
`cap_y = int(start_edge_y + t * (end_edge_y - start_edge_y))`. -/
def faderCapY (start_edge_y end_edge_y : ℚ) (frames i : ℕ) : ℤ :=
  pyInt (start_edge_y + tParam frames i * (end_edge_y - start_edge_y))

/-- Sequence of per-frame motion parameters before integer conversion,
shared by both export loops: value `start + t * (stop - start)` for each
`i` in `range frames`. -/
def sampleParams (start stop : ℚ) (frames : ℕ) : List ℚ :=
  (List.range frames).map (fun i => start + tParam frames i * (stop - start))

/-- Per-frame applied rotations of the knob export loop
(knob_animation_tab.py lines 745-749):
`target_angle = start_angle + t * (end_angle - start_angle)`;
`rotation = target_angle - pointer_angle`. -/
def knobRotations (start_angle end_angle pointer_angle : ℚ)
    (frames_count : ℕ) : List ℚ :=
  (List.range frames_count).map
    (fun i =>
      (start_angle + tParam frames_count i * (end_angle - start_angle))
        - pointer_angle)

/-- New end angle after the reverse-direction adjustment
(knob_animation_tab.py lines 575-587): with `arc = end_angle - start_angle`,
`end_angle - 360` when `arc > 0`, else `end_angle + 360`. -/
def on_reverse_direction (start_angle end_angle : ℚ) : ℚ :=
  if end_angle - start_angle > 0 then end_angle - 360 else end_angle + 360

/-! ## Sheet packer layout (knob_animation_tab.py lines 716-725 and 798-808;
animation_tab.py lines 257-262 and 273-278 are the Horizontal/Vertical
restriction of the same arithmetic) -/

/-- Layout selector of the export combo box:
"Horizontal", "Vertical" or "Grid". -/
inductive Layout
  | horizontal
  | vertical
  | grid
deriving DecidableEq

/-- Model of Python `math.ceil(a / b)` on nonnegative integers: the ceiling
of the exact rational quotient. -/
def ceilDivQ (a b : ℕ) : ℕ :=
  (Int.ceil ((a : ℚ) / (b : ℚ))).toNat

/-- Spritesheet pixel dimensions (width, height) as computed by
`on_export_spritesheet` for each layout:
Horizontal: `(fw * N + offset * (N - 1), fh)`;
Vertical: `(fw, fh * N + offset * (N - 1))`;
Grid: `rows = math.ceil(N / grid_cols)` and
`(fw * grid_cols + offset * (grid_cols - 1), fh * rows + offset * (rows - 1))`. -/
def sheetSize (frame_width frame_height frames_count offset grid_cols : ℕ) :
    Layout → ℕ × ℕ
  | .horizontal =>
      (frame_width * frames_count + offset * (frames_count - 1), frame_height)
  | .vertical =>
      (frame_width, frame_height * frames_count + offset * (frames_count - 1))
  | .grid =>
      let rows := ceilDivQ frames_count grid_cols
      (frame_width * grid_cols + offset * (grid_cols - 1),
       frame_height * rows + offset * (rows - 1))

/-- Pixel position (x, y) at which frame `i` is pasted:
Horizontal: `(i * (fw + offset), 0)`;
Vertical: `(0, i * (fh + offset))`;
Grid: `col = i % grid_cols`, `row = i // grid_cols`,
`(col * (fw + offset), row * (fh + offset))`. -/
def framePlacement (frame_width frame_height offset grid_cols i : ℕ) :
    Layout → ℕ × ℕ
  | .horizontal => (i * (frame_width + offset), 0)
  | .vertical => (0, i * (frame_height + offset))
  | .grid =>
      ((i % grid_cols) * (frame_width + offset),
       (i / grid_cols) * (frame_height + offset))

/-! ## Export calibration gating (animation_tab.py lines 233-243,
knob_animation_tab.py lines 696-699) -/

/-- Pipeline failure relevant to export gating: a required calibration
value is unset when export is requested. -/
inductive ExportErr
  | missingCalibration
deriving DecidableEq

/-- Calibration-relevant state of the fader animation tab: the loaded
guide and cap image paths and the two edge markers, each unset until the
user provides it. -/
structure FaderTabState where
  guide_path : Option String
  cap_path : Option String
  start_edge_y : Option ℚ
  end_edge_y : Option ℚ

/-- Calibration-relevant state of the knob animation tab: the loaded knob
image path and the rotation pivot point. -/
structure KnobTabState where
  knob_path : Option String
  rotation_center : Option (ℚ × ℚ)

/-- Gate of AnimationTab.on_export_spritesheet (animation_tab.py lines
233-243): when the guide image, cap image, start edge or end edge is
unset the handler returns before creating the output directory or
writing any file; this refusal is the spec's MissingCalibration failure.
Otherwise the single sheet file is written. -/
def fader_on_export_spritesheet (st : FaderTabState) :
    Except ExportErr (List String) :=
  if st.guide_path = none ∨ st.cap_path = none
      ∨ st.start_edge_y = none ∨ st.end_edge_y = none
  then .error .missingCalibration
  else .ok ["output/fader_spritesheet.png"]

/-- Gate of KnobAnimationTab.on_export_spritesheet
(knob_animation_tab.py lines 696-699): when the knob image or the
rotation center (pivot) is unset the handler returns before writing any
file; this refusal is the spec's MissingCalibration failure. -/
def knob_on_export_spritesheet (st : KnobTabState) :
    Except ExportErr (List String) :=
  if st.knob_path = none ∨ st.rotation_center = none
  then .error .missingCalibration
  else .ok ["output/knob_spritesheet.png"]

/-! ## Segmentation engine (process_fader_image.py lines 10-41) -/

/-- One RGBA pixel, 8 bits per channel (values 0-255). -/
structure Pixel where
  r : ℕ
  g : ℕ
  b : ℕ
  a : ℕ
deriving DecidableEq

/-- A decoded raster image: dimensions plus per-pixel RGBA values. -/
structure RasterImage where
  width : ℕ
  height : ℕ
  pix : ℕ → ℕ → Pixel

/-- OpenCV BGR-to-grayscale conversion in its fixed-point form:
`(R*4899 + G*9617 + B*1868 + 2^13) >> 14`, the rounding of
`0.299 R + 0.587 G + 0.114 B` to the nearest integer. -/
def bgr2gray (b g r : ℕ) : ℕ :=
  (r * 4899 + g * 9617 + b * 1868 + 8192) / 16384

/-- cv2.threshold with THRESH_BINARY: `maxval` where the source value
strictly exceeds `thresh`, `0` elsewhere. -/
def cvThresholdBinary (thresh maxval v : ℕ) : ℕ :=
  if v > thresh then maxval else 0

/-- remove_black_background (process_fader_image.py lines 10-41) on the
decoded pixels: the alpha channel is replaced by the binarized grayscale
mask computed from the color channels; the color channels pass through
unchanged; any pre-existing alpha is ignored by construction. -/
def remove_black_background (img : RasterImage) (threshold : ℕ) :
    RasterImage :=
  { width := img.width
    height := img.height
    pix := fun x y =>
      let p := img.pix x y
      { r := p.r, g := p.g, b := p.b
        a := cvThresholdBinary threshold 255 (bgr2gray p.b p.g p.r) } }

/-- Replace an image's alpha channel pointwise, keeping the color
channels; used to state that segmentation discards pre-existing alpha. -/
def withAlpha (img : RasterImage) (alpha : ℕ → ℕ → ℕ) : RasterImage :=
  { width := img.width
    height := img.height
    pix := fun x y =>
      let p := img.pix x y
      { r := p.r, g := p.g, b := p.b, a := alpha x y } }

/-! ## Sheet assembly (animation_tab.py lines 264-280,
knob_animation_tab.py lines 727-810) -/

/-- The fully transparent RGBA pixel (0, 0, 0, 0). -/
def transparentPixel : Pixel := ⟨0, 0, 0, 0⟩

/-- Membership of the point (x, y) in the w×h rectangle anchored at
`pos`. -/
def inRect (pos : ℕ × ℕ) (w h x y : ℕ) : Prop :=
  pos.1 ≤ x ∧ x < pos.1 + w ∧ pos.2 ≤ y ∧ y < pos.2 + h

instance (pos : ℕ × ℕ) (w h x y : ℕ) : Decidable (inRect pos w h x y) := by
  unfold inRect
  infer_instance

/-- PIL Image.paste with a bare (x, y) box and no mask: every pixel of
the w×h destination rectangle is replaced by the pasted frame; every
other pixel keeps its previous value. -/
def pasteRegion (sheet frame : ℕ → ℕ → Pixel) (pos : ℕ × ℕ) (w h : ℕ) :
    ℕ → ℕ → Pixel :=
  fun x y =>
    if inRect pos w h x y then frame (x - pos.1) (y - pos.2) else sheet x y

/-- Sheet assembly loop: `Image.new("RGBA", ..., (0, 0, 0, 0))` gives a
fully transparent canvas, then frame i is pasted at its layout placement
for each i in `range(frames_count)`. The per-frame bitmaps are abstracted
as `frameImgs` because their content does not affect which pixels a paste
touches. -/
def assembleSheet (frameImgs : ℕ → ℕ → ℕ → Pixel)
    (frames_count fw fh offset grid_cols : ℕ) (layout : Layout) :
    ℕ → ℕ → Pixel :=
  (List.range frames_count).foldl
    (fun sheet i =>
      pasteRegion sheet (frameImgs i)
        (framePlacement fw fh offset grid_cols i layout) fw fh)
    (fun _ _ => transparentPixel)

/-! ## Python call binding (background_tab.py lines 140-196 against
process_fader_image.py signatures) -/

/-- One Python parameter: its name and whether it has a default value. -/
structure PyParam where
  name : String
  hasDefault : Bool
deriving DecidableEq

/-- Python runtime error relevant here. -/
inductive PyErr
  | typeError
deriving DecidableEq

/-- Python call binding for positional-or-keyword parameters: `npos`
positional arguments fill the leading parameters in order; every keyword
argument must name a parameter that was not filled positionally; every
parameter left without a value and without a default raises TypeError
before the function body runs. -/
def bindCall (params : List PyParam) (npos : ℕ) (kwargs : List String) :
    Except PyErr Unit :=
  if npos ≤ params.length
      ∧ (∀ k ∈ kwargs, k ∈ (params.drop npos).map PyParam.name)
      ∧ (∀ p ∈ params.drop npos, p.hasDefault = true ∨ p.name ∈ kwargs)
  then .ok ()
  else .error .typeError

/-- Signature of remove_black_background (process_fader_image.py lines
10-14): `(input_path, output_path, threshold=10)`. -/
def remove_black_background_params : List PyParam :=
  [⟨"input_path", false⟩, ⟨"output_path", false⟩, ⟨"threshold", true⟩]

/-- Signature of split_components (process_fader_image.py lines 44-48):
`(input_path, output_dir, min_area=2000)`. -/
def split_components_params : List PyParam :=
  [⟨"input_path", false⟩, ⟨"output_dir", false⟩, ⟨"min_area", true⟩]

/-- BackgroundTab.on_params_changed (background_tab.py lines 140-172):
returns immediately when no image is loaded; otherwise calls
`remove_black_background(img, threshold=threshold)` (one positional
argument plus the threshold keyword), then
`split_components(no_bg, min_area=min_area)`, then writes the preview
files. The result lists the files written. -/
def on_params_changed (image_loaded : Bool) : Except PyErr (List String) :=
  if image_loaded = false then .ok []
  else
    match bindCall remove_black_background_params 1 ["threshold"] with
    | .error e => .error e
    | .ok _ =>
      match bindCall split_components_params 1 ["min_area"] with
      | .error e => .error e
      | .ok _ =>
          .ok ["preview/no_bg.png", "preview/component_0.png",
               "preview/composite.png"]

/-- BackgroundTab.on_export_components (background_tab.py lines 174-196):
returns immediately when no image is loaded; otherwise calls
`remove_black_background(img, threshold=threshold)`, then would save the
no-background image, call `split_components(no_bg, min_area=min_area)`
and save each component. The result lists the files written. -/
def on_export_components (image_loaded : Bool) : Except PyErr (List String) :=
  if image_loaded = false then .ok []
  else
    match bindCall remove_black_background_params 1 ["threshold"] with
    | .error e => .error e
    | .ok _ =>
      match bindCall split_components_params 1 ["min_area"] with
      | .error e => .error e
      | .ok _ =>
          .ok ["output/stem_no_bg.png", "output/stem_component_0.png"]

/-! ## Component extractor (process_fader_image.py lines 44-94) -/

/-- All pixel positions (x, y) of a w×h image. -/
def gridPositions (w h : ℕ) : Finset (ℕ × ℕ) :=
  Finset.range w ×ˢ Finset.range h

/-- Row-major scan order of the pixel positions, the order in which the
labeling pass assigns labels. -/
def posScan (w h : ℕ) : List (ℕ × ℕ) :=
  (List.range h).flatMap (fun y => (List.range w).map (fun x => (x, y)))

/-- Foreground mask of split_components (lines 62-65): positions whose
alpha channel is strictly positive (`cv2.threshold(a, 0, 255,
THRESH_BINARY)`). -/
def fgMask (img : RasterImage) : Finset (ℕ × ℕ) :=
  (gridPositions img.width img.height).filter
    (fun p => 0 < (img.pix p.1 p.2).a)

/-- Containment of q in the 3×3 window centered at p (the all-ones
morphology kernel, center included): each coordinate differs by at most
one. -/
def near (p q : ℕ × ℕ) : Prop :=
  max p.1 q.1 - min p.1 q.1 ≤ 1 ∧ max p.2 q.2 - min p.2 q.2 ≤ 1

instance (p q : ℕ × ℕ) : Decidable (near p q) := by
  unfold near
  infer_instance

/-- 3×3 erosion with the OpenCV constant-border convention for erosion
(outside pixels count as foreground): a position stays foreground iff
every in-bounds position of its 3×3 window is foreground. -/
def erodeMask (w h : ℕ) (m : Finset (ℕ × ℕ)) : Finset (ℕ × ℕ) :=
  (gridPositions w h).filter
    (fun p => ∀ q ∈ gridPositions w h, near p q → q ∈ m)

/-- 3×3 dilation: a position becomes foreground iff some foreground
position lies in its 3×3 window. -/
def dilateMask (w h : ℕ) (m : Finset (ℕ × ℕ)) : Finset (ℕ × ℕ) :=
  (gridPositions w h).filter (fun p => ∃ q ∈ m, near p q)

/-- cv2.morphologyEx MORPH_OPEN with the 3×3 all-ones kernel, one
iteration (lines 67-69): erosion followed by dilation. -/
def openedMask (img : RasterImage) : Finset (ℕ × ℕ) :=
  dilateMask img.width img.height
    (erodeMask img.width img.height (fgMask img))

/-- 8-connectivity adjacency: distinct positions whose coordinates differ
by at most one in each axis (diagonal neighbors included). -/
def adj8 (p q : ℕ × ℕ) : Prop := p ≠ q ∧ near p q

instance (p q : ℕ × ℕ) : Decidable (adj8 p q) := by
  unfold adj8
  infer_instance

/-- One expansion step of a connected region inside `mask`: add every
mask position adjacent to the region. -/
def growStep (mask s : Finset (ℕ × ℕ)) : Finset (ℕ × ℕ) :=
  s ∪ mask.filter (fun p => ∃ q ∈ s, adj8 q p)

/-- Connected component of `seed` in `mask`, computed by `fuel` expansion
steps (w*h steps saturate on a w×h image). -/
def componentOf (mask : Finset (ℕ × ℕ)) (seed : ℕ × ℕ) :
    ℕ → Finset (ℕ × ℕ)
  | 0 => {seed}
  | fuel + 1 => growStep mask (componentOf mask seed fuel)

/-- Regions of the connected-component labeling pass
(cv2.connectedComponentsWithStats with connectivity 8, lines 71-73):
one region per disjoint foreground blob of the cleaned mask, each
represented by the component of its first position in scan order. -/
def labelRegions (w h : ℕ) (mask : Finset (ℕ × ℕ)) :
    List (Finset (ℕ × ℕ)) :=
  ((posScan w h).filter
      (fun p => decide (p ∈ mask)
        && decide ((posScan w h).find?
              (fun q => decide (q ∈ componentOf mask p (w * h))) = some p))).map
    (fun p => componentOf mask p (w * h))

/-- split_components (lines 44-94) on the decoded image: clean the
alpha-derived foreground mask by morphological opening, label connected
regions, and keep those whose pixel area (`stats[label]` area, the
region's cardinality) is not below min_area (`if area < min_area:
continue`). -/
def split_components (img : RasterImage) (min_area : ℕ) :
    List (Finset (ℕ × ℕ)) :=
  (labelRegions img.width img.height (openedMask img)).filter
    (fun c => !decide (c.card < min_area))

/-- Test image for the extractor: a 2×2 image, white and opaque
everywhere. -/
def whiteImg2 : RasterImage := ⟨2, 2, fun _ _ => ⟨255, 255, 255, 255⟩⟩

end MaxGui

namespace MaxGui

/-! ## Helper lemmas -/

/-- Ceiling of an exact rational quotient of naturals equals the usual
add-predecessor-and-divide formula. -/
theorem ceilDivQ_eq (a b : ℕ) (hb : 0 < b) : ceilDivQ a b = (a + b - 1) / b := by
  unfold ceilDivQ
  have hbq : (0 : ℚ) < (b : ℚ) := by exact_mod_cast hb
  set d : ℕ := (a + b - 1) / b with hd
  have h1 : d * b ≤ a + b - 1 := Nat.div_mul_le_self _ _
  have h2 : a + b - 1 < (d + 1) * b := by
    have hmod := Nat.mod_lt (a + b - 1) hb
    have hdm := Nat.div_add_mod (a + b - 1) b
    rw [← hd] at hdm
    have hx : (d + 1) * b = b * d + b := by ring
    omega
  have hceil : Int.ceil ((a : ℚ) / (b : ℚ)) = (d : ℤ) := by
    rw [Int.ceil_eq_iff]
    constructor
    · rw [lt_div_iff₀ hbq]
      have hlt : (d * b : ℕ) < a + b := by omega
      have hq : ((d : ℚ) * b) < (a : ℚ) + b := by exact_mod_cast hlt
      push_cast
      linarith
    · rw [div_le_iff₀ hbq]
      have hx : (d + 1) * b = d * b + b := by ring
      have hle : a ≤ d * b := by omega
      exact_mod_cast hle
  rw [hceil]
  exact Int.toNat_natCast _

/-- Unfolding equation for `tParam`. -/
theorem tParam_def (frames i : ℕ) :
    tParam frames i = if 1 < frames then (i : ℚ) / ((frames : ℚ) - 1) else 0 :=
  rfl

/-- Frame interpolation parameters are always nonnegative. -/
theorem tParam_nonneg (frames i : ℕ) : 0 ≤ tParam frames i := by
  unfold tParam
  split
  · rename_i h
    apply div_nonneg (by positivity)
    have : (1 : ℚ) ≤ (frames : ℚ) := by exact_mod_cast Nat.one_le_of_lt h
    linarith
  · exact le_refl 0

/-! ## Claim theorems -/

/-- Claim C1: for every frame size, frame count in [2, 256], offset in
[0, 512] and layout kind (grid columns in [1, 32]), the packed sheet's
dimensions equal the closed-form formulas — Horizontal
`(W*N + offset*(N-1)) × H`, Vertical `W × (H*N + offset*(N-1))`, Grid with
`rows = ceil(N / cols) = (N + cols - 1) / cols` giving
`(W*cols + offset*(cols-1)) × (H*rows + offset*(rows-1))` — and frame `i`
is placed at `(i*(W+offset), 0)`, `(0, i*(H+offset))`, or
`((i % cols)*(W+offset), (i / cols)*(H+offset))` respectively. -/
theorem sheet_dimension_law (W H N offset cols : ℕ)
    (hW : 1 ≤ W) (hH : 1 ≤ H) (hN2 : 2 ≤ N) (hN : N ≤ 256)
    (hoff : offset ≤ 512) (hc1 : 1 ≤ cols) (hc : cols ≤ 32) :
    sheetSize W H N offset cols .horizontal
        = (W * N + offset * (N - 1), H)
      ∧ sheetSize W H N offset cols .vertical
        = (W, H * N + offset * (N - 1))
      ∧ sheetSize W H N offset cols .grid
        = (W * cols + offset * (cols - 1),
           H * ((N + cols - 1) / cols) + offset * ((N + cols - 1) / cols - 1))
      ∧ ∀ i < N,
          framePlacement W H offset cols i .horizontal = (i * (W + offset), 0)
        ∧ framePlacement W H offset cols i .vertical = (0, i * (H + offset))
        ∧ framePlacement W H offset cols i .grid
            = ((i % cols) * (W + offset), (i / cols) * (H + offset)) := by
  refine ⟨rfl, rfl, ?_, fun i _ => ⟨rfl, rfl, rfl⟩⟩
  show (W * cols + offset * (cols - 1),
        H * ceilDivQ N cols + offset * (ceilDivQ N cols - 1)) = _
  rw [ceilDivQ_eq N cols (by omega)]

/-- Claim C1 witness: concrete instantiation with W = 64, H = 64, N = 4,
offset = 2, cols = 3 (spec scenario 6 for the horizontal case). -/
theorem sheet_dimension_law_witness :
    sheetSize 64 64 4 2 3 .horizontal = (262, 64)
      ∧ sheetSize 64 64 4 2 3 .grid = (196, 130)
      ∧ framePlacement 64 64 2 3 3 .grid = (0, 66) := by
  have h := sheet_dimension_law 64 64 4 2 3 (by norm_num) (by norm_num)
    (by norm_num) (by norm_num) (by norm_num) (by norm_num) (by norm_num)
  refine ⟨h.1.trans (by norm_num), h.2.2.1.trans (by norm_num), ?_⟩
  exact ((h.2.2.2 3 (by norm_num)).2.2).trans (by norm_num)

/-- Claim C2: for every frame count N ≥ 2 the sampler yields exactly N
motion parameters with parameter `i / (N - 1)` at index i; index 0 equals
the start value exactly and index N - 1 equals the end value exactly. -/
theorem sampler_endpoints (s e : ℚ) (N : ℕ) (hN : 2 ≤ N) :
    (sampleParams s e N).length = N
      ∧ (∀ i < N, (sampleParams s e N)[i]?
            = some (s + ((i : ℚ) / ((N : ℚ) - 1)) * (e - s)))
      ∧ (sampleParams s e N)[0]? = some s
      ∧ (sampleParams s e N)[N - 1]? = some e := by
  have hN1 : (1 : ℕ) < N := by omega
  have hNq : (1 : ℚ) < (N : ℚ) := by exact_mod_cast hN1
  have helem : ∀ i < N, (sampleParams s e N)[i]?
      = some (s + ((i : ℚ) / ((N : ℚ) - 1)) * (e - s)) := by
    intro i hi
    simp only [sampleParams, List.getElem?_map, List.getElem?_range hi,
      Option.map_some']
    rw [tParam_def, if_pos hN1]
  refine ⟨by simp [sampleParams], helem, ?_, ?_⟩
  · rw [helem 0 (by omega)]
    norm_num
  · rw [helem (N - 1) (by omega)]
    have hcast : ((N - 1 : ℕ) : ℚ) = (N : ℚ) - 1 := by
      push_cast [Nat.cast_sub (by omega : 1 ≤ N)]
      ring
    rw [hcast, div_self (by linarith)]
    norm_num

/-- Claim C2 witness: start 0, end 10, N = 3 gives the sequence
[0, 5, 10] (spec scenario 4). -/
theorem sampler_endpoints_witness :
    (sampleParams 0 10 3).length = 3
      ∧ (sampleParams 0 10 3)[0]? = some 0
      ∧ (sampleParams 0 10 3)[1]? = some 5
      ∧ (sampleParams 0 10 3)[2]? = some 10 := by
  have h := sampler_endpoints 0 10 3 (by norm_num)
  refine ⟨h.1, h.2.2.1, ?_, h.2.2.2⟩
  rw [h.2.1 1 (by norm_num)]
  norm_num

/-- Claim C3 counterexample: with start_y = 0, end_y = 7, N = 4 frames,
frame 2 has t = 2/3 and exact position 14/3; the code's `int(...)` yields
4 while rounding to the nearest integer yields 5. -/
theorem fader_round_counterexample :
    tParam 4 2 = 2 / 3
      ∧ faderCapY 0 7 4 2 = 4
      ∧ round ((0 : ℚ) + (2 / 3 : ℚ) * (7 - 0)) = 5
      ∧ faderCapY 0 7 4 2 ≠ round ((0 : ℚ) + tParam 4 2 * ((7 : ℚ) - 0)) := by
  have ht : tParam 4 2 = 2 / 3 := by norm_num [tParam]
  have h1 : faderCapY 0 7 4 2 = 4 := by
    rw [faderCapY, ht, pyInt, if_pos (by norm_num)]
    rw [show (0 : ℚ) + 2 / 3 * (7 - 0) = 14 / 3 by norm_num]
    rw [Int.floor_eq_iff]
    norm_num
  have h2 : round ((0 : ℚ) + (2 / 3 : ℚ) * (7 - 0)) = 5 := by
    rw [show (0 : ℚ) + 2 / 3 * (7 - 0) = 14 / 3 by norm_num, round_eq]
    rw [show (14 / 3 : ℚ) + 1 / 2 = 31 / 6 by norm_num]
    rw [Int.floor_eq_iff]
    norm_num
  refine ⟨ht, h1, h2, ?_⟩
  rw [ht, h1, h2]
  norm_num

/-- Claim C3 amended: the sampled vertical position is the exact
interpolant `start_y + t * (end_y - start_y)` truncated toward zero by
Python `int(...)` — for the nonnegative coordinates
`0 ≤ start_y ≤ end_y` this is the floor of the interpolant, not the
nearest integer. -/
theorem fader_position_truncated (s e : ℚ) (N i : ℕ)
    (hs : 0 ≤ s) (hse : s ≤ e) :
    faderCapY s e N i = Int.floor (s + tParam N i * (e - s)) := by
  unfold faderCapY pyInt
  have hy : 0 ≤ s + tParam N i * (e - s) := by
    have ht := tParam_nonneg N i
    have : 0 ≤ tParam N i * (e - s) := mul_nonneg ht (by linarith)
    linarith
  rw [if_pos hy]

/-- Claim C3 amended witness: start_y = 0, end_y = 7, N = 4, frame 2 gives
the floor of 14/3, namely 4. -/
theorem fader_position_truncated_witness :
    (0 : ℚ) ≤ 0 ∧ (0 : ℚ) ≤ 7
      ∧ faderCapY 0 7 4 2 = Int.floor ((0 : ℚ) + tParam 4 2 * ((7 : ℚ) - 0)) := by
  exact ⟨le_refl 0, by norm_num,
    fader_position_truncated 0 7 4 2 (le_refl 0) (by norm_num)⟩

/-- Claim C5: for every sampled frame i the applied rotation equals the
interpolated target angle minus the pointer baseline angle exactly, with
no clamping or normalization of the angle magnitude. -/
theorem knob_rotation_exact (sa ea pa : ℚ) (N i : ℕ)
    (hN : 2 ≤ N) (hi : i < N) :
    (knobRotations sa ea pa N)[i]?
      = some ((sa + ((i : ℚ) / ((N : ℚ) - 1)) * (ea - sa)) - pa) := by
  simp only [knobRotations, List.getElem?_map, List.getElem?_range hi,
    Option.map_some']
  rw [tParam_def, if_pos (by omega : 1 < N)]

/-- Claim C5 witness: pointer baseline -135, start -135, end 135, N = 3
yields the rotation sequence value 270 at the last frame even though the
sweep spans 270 degrees (spec scenario 5); frames 0 and 1 give 0
and 135. -/
theorem knob_rotation_exact_witness :
    (knobRotations (-135) 135 (-135) 3)[0]? = some 0
      ∧ (knobRotations (-135) 135 (-135) 3)[1]? = some 135
      ∧ (knobRotations (-135) 135 (-135) 3)[2]? = some 270 := by
  refine ⟨?_, ?_, ?_⟩
  · rw [knob_rotation_exact (-135) 135 (-135) 3 0 (by norm_num) (by norm_num)]
    norm_num
  · rw [knob_rotation_exact (-135) 135 (-135) 3 1 (by norm_num) (by norm_num)]
    norm_num
  · rw [knob_rotation_exact (-135) 135 (-135) 3 2 (by norm_num) (by norm_num)]
    norm_num

/-- Claim C6: applying the reverse-direction adjustment twice returns the
end angle to a value congruent to the original modulo 360. -/
theorem reverse_direction_round_trip (s e : ℚ) :
    ∃ k : ℤ, on_reverse_direction s (on_reverse_direction s e) - e
      = 360 * k := by
  unfold on_reverse_direction
  split
  · split
    · exact ⟨-2, by ring⟩
    · exact ⟨0, by ring⟩
  · split
    · exact ⟨0, by ring⟩
    · exact ⟨2, by ring⟩

/-- Claim C4: if any required calibration — start edge, end edge, or (for
rotation) the pivot point — is unset when spritesheet export is
requested, the export refuses with the MissingCalibration outcome and no
output file is written (the result carries the written-file list only in
the success case). -/
theorem missing_calibration_blocks_export
    (fst : FaderTabState) (kst : KnobTabState)
    (hf : fst.start_edge_y = none ∨ fst.end_edge_y = none)
    (hk : kst.rotation_center = none) :
    fader_on_export_spritesheet fst = .error .missingCalibration
      ∧ knob_on_export_spritesheet kst = .error .missingCalibration := by
  constructor
  · unfold fader_on_export_spritesheet
    rcases hf with h | h
    · rw [if_pos (Or.inr (Or.inr (Or.inl h)))]
    · rw [if_pos (Or.inr (Or.inr (Or.inr h)))]
  · unfold knob_on_export_spritesheet
    rw [if_pos (Or.inr hk)]

/-- Claim C4 witness: a fader tab with images loaded but no start edge,
and a knob tab with an image loaded but no pivot, both refuse to export. -/
theorem missing_calibration_blocks_export_witness :
    fader_on_export_spritesheet ⟨some ("guide.png"), some ("cap.png"), none, some 10⟩
        = .error .missingCalibration
      ∧ knob_on_export_spritesheet ⟨some ("knob.png"), none⟩
        = .error .missingCalibration :=
  missing_calibration_blocks_export
    ⟨some ("guide.png"), some ("cap.png"), none, some 10⟩
    ⟨some ("knob.png"), none⟩ (Or.inl rfl) rfl

/-- Claim C7: segmentation maps every pixel whose grayscale value strictly
exceeds the threshold to alpha 255 and every other pixel to alpha 0; the
whole alpha channel is this mask — replacing the input's alpha channel
beforehand does not change the output — and the color channels are
identical to the input's. -/
theorem segmentation_replaces_alpha (img : RasterImage) (threshold x y : ℕ) :
    ((remove_black_background img threshold).pix x y).a
        = cvThresholdBinary threshold 255
            (bgr2gray (img.pix x y).b (img.pix x y).g (img.pix x y).r)
      ∧ (bgr2gray (img.pix x y).b (img.pix x y).g (img.pix x y).r > threshold →
          ((remove_black_background img threshold).pix x y).a = 255)
      ∧ (¬ bgr2gray (img.pix x y).b (img.pix x y).g (img.pix x y).r > threshold →
          ((remove_black_background img threshold).pix x y).a = 0)
      ∧ ((remove_black_background img threshold).pix x y).r = (img.pix x y).r
      ∧ ((remove_black_background img threshold).pix x y).g = (img.pix x y).g
      ∧ ((remove_black_background img threshold).pix x y).b = (img.pix x y).b
      ∧ (remove_black_background img threshold).width = img.width
      ∧ (remove_black_background img threshold).height = img.height
      ∧ ∀ alpha, remove_black_background (withAlpha img alpha) threshold
          = remove_black_background img threshold := by
  refine ⟨rfl, ?_, ?_, rfl, rfl, rfl, rfl, rfl, fun alpha => rfl⟩
  · intro h
    show cvThresholdBinary threshold 255 _ = 255
    rw [cvThresholdBinary, if_pos h]
  · intro h
    show cvThresholdBinary threshold 255 _ = 0
    rw [cvThresholdBinary, if_neg h]

/-- Helper for claim C9: a fold of pastes leaves a pixel untouched when
it lies outside every pasted rectangle. -/
theorem foldl_paste_outside (frameImgs : ℕ → ℕ → ℕ → Pixel)
    (fw fh offset cols : ℕ) (layout : Layout) (x y : ℕ) (l : List ℕ) :
    ∀ init : ℕ → ℕ → Pixel,
      (∀ i ∈ l, ¬ inRect (framePlacement fw fh offset cols i layout) fw fh x y) →
      init x y = transparentPixel →
      (l.foldl (fun sheet i => pasteRegion sheet (frameImgs i)
          (framePlacement fw fh offset cols i layout) fw fh) init) x y
        = transparentPixel := by
  induction l with
  | nil => intro init _ hinit; simpa using hinit
  | cons i l ih =>
      intro init hout hinit
      simp only [List.foldl_cons]
      apply ih
      · intro j hj
        exact hout j (List.mem_cons_of_mem _ hj)
      · show pasteRegion init (frameImgs i) _ fw fh x y = transparentPixel
        unfold pasteRegion
        rw [if_neg (hout i (List.mem_cons_self i l))]
        exact hinit

/-- Claim C9: in the packed spritesheet, every pixel outside all N frame
placement rectangles — gap columns/rows and unused trailing grid cells —
is fully transparent (0, 0, 0, 0): the canvas starts fully transparent
and pasting frame i touches only its own fw×fh rectangle. -/
theorem gaps_are_transparent (frameImgs : ℕ → ℕ → ℕ → Pixel)
    (N fw fh offset cols : ℕ) (layout : Layout) (x y : ℕ)
    (hout : ∀ i < N,
      ¬ inRect (framePlacement fw fh offset cols i layout) fw fh x y) :
    assembleSheet frameImgs N fw fh offset cols layout x y
      = transparentPixel := by
  unfold assembleSheet
  apply foldl_paste_outside
  · intro i hi
    exact hout i (List.mem_range.mp hi)
  · rfl

/-- Claim C9 witness: two 1×1 frames, offset 1, horizontal layout; the
gap pixel (1, 0) of the 3×1 sheet is fully transparent even though every
frame pixel is opaque. -/
theorem gaps_are_transparent_witness :
    (∀ i < 2, ¬ inRect (framePlacement 1 1 1 1 i .horizontal) 1 1 1 0)
      ∧ assembleSheet (fun _ _ _ => ⟨9, 9, 9, 255⟩) 2 1 1 1 1 .horizontal 1 0
          = transparentPixel :=
  ⟨by decide,
    gaps_are_transparent (fun _ _ _ => ⟨9, 9, 9, 255⟩) 2 1 1 1 1 .horizontal
      1 0 (by decide)⟩

/-- Claim C10: with an image loaded, both the preview path and the export
path of the background-removal tab fail with TypeError at the call to
remove_black_background — the required output-path parameter is never
supplied — so no preview or component file is produced. -/
theorem background_tab_calls_raise_type_error :
    on_params_changed true = .error .typeError
      ∧ on_export_components true = .error .typeError := by
  constructor <;> rfl

/-- Symmetry of the 3×3 window relation. -/
theorem near_symm {p q : ℕ × ℕ} (h : near p q) : near q p := by
  unfold near at h ⊢
  rw [max_comm q.1 p.1, min_comm q.1 p.1, max_comm q.2 p.2, min_comm q.2 p.2]
  exact h

/-- A growing component stays inside its mask once its seed is in the
mask. -/
theorem componentOf_subset_mask (mask : Finset (ℕ × ℕ)) (seed : ℕ × ℕ)
    (hseed : seed ∈ mask) (fuel : ℕ) : componentOf mask seed fuel ⊆ mask := by
  induction fuel with
  | zero => simpa [componentOf] using hseed
  | succ n ih =>
      show growStep mask (componentOf mask seed n) ⊆ mask
      unfold growStep
      exact Finset.union_subset ih (Finset.filter_subset _ _)

/-- Morphological opening never adds foreground: the opened mask is
contained in the alpha-derived foreground mask. -/
theorem openedMask_subset_fgMask (img : RasterImage) :
    openedMask img ⊆ fgMask img := by
  intro p hp
  unfold openedMask dilateMask at hp
  rw [Finset.mem_filter] at hp
  obtain ⟨hpg, q, hq, hnear⟩ := hp
  unfold erodeMask at hq
  rw [Finset.mem_filter] at hq
  exact hq.2 p hpg (near_symm hnear)

/-- Claim C8: every region returned by the component extractor has pixel
area at least the minimum-area threshold (smaller regions are discarded)
and at most the total foreground pixel count of the source image. -/
theorem component_area_invariant (img : RasterImage) (min_area : ℕ)
    (c : Finset (ℕ × ℕ)) (hc : c ∈ split_components img min_area) :
    min_area ≤ c.card ∧ c.card ≤ (fgMask img).card := by
  unfold split_components at hc
  rw [List.mem_filter] at hc
  obtain ⟨hmem, harea⟩ := hc
  refine ⟨?_, ?_⟩
  · simp only [Bool.not_eq_true', decide_eq_false_iff_not, not_lt] at harea
    exact harea
  · unfold labelRegions at hmem
    rw [List.mem_map] at hmem
    obtain ⟨p, hp, hcomp⟩ := hmem
    rw [List.mem_filter] at hp
    have hpmask : p ∈ openedMask img := by
      have h2 := hp.2
      simp only [Bool.and_eq_true, decide_eq_true_eq] at h2
      exact h2.1
    apply Finset.card_le_card
    have h1 : c ⊆ openedMask img :=
      hcomp ▸ componentOf_subset_mask _ p hpmask _
    exact h1.trans (openedMask_subset_fgMask img)

/-- Claim C8 witness: on the all-opaque 2×2 test image with minimum area
2, the single extracted region is the full 2×2 block; its area is
between 2 and the total foreground count. -/
theorem component_area_invariant_witness :
    ({(0, 0), (1, 0), (0, 1), (1, 1)} : Finset (ℕ × ℕ))
        ∈ split_components whiteImg2 2
      ∧ 2 ≤ ({(0, 0), (1, 0), (0, 1), (1, 1)} : Finset (ℕ × ℕ)).card
      ∧ ({(0, 0), (1, 0), (0, 1), (1, 1)} : Finset (ℕ × ℕ)).card
          ≤ (fgMask whiteImg2).card := by
  have hm : ({(0, 0), (1, 0), (0, 1), (1, 1)} : Finset (ℕ × ℕ))
      ∈ split_components whiteImg2 2 := by decide
  have h := component_area_invariant whiteImg2 2 _ hm
  exact ⟨hm, h.1, h.2⟩

end MaxGui
